import Mathlib

/-!
Verification of the metrics-capacitor transport bridge.

Part I embeds the Ruby value object `MetricsCapacitor::Model::Metric`
(lib/metrics-capacitor/model/metric.rb): its normalising accessors `tags`
and `values`, and the encode/decode pair (`to_redis` / `initialize` with a
packed payload).

Part II embeds the Go AMQP transport
(src/github.com/metrics-capacitor/metrics-capacitor/transport_amqp.go):
the constructor `NewAMQPTransport`, the worker loops spawned by `Start`,
the shutdown watcher, and `Stop`.
-/

namespace Metcap

/-! ## Part I: the Ruby `Metric` value object

The metric record is a Ruby hash.  The shapes the program puts in it are a
top-level hash whose keys are symbols or strings and whose values are
scalars (strings, symbols, integers, floats, nil) or one further level of
hash (the `tags` and `values` mappings).  Floats are idealised as exact
rationals; none of the verified behaviour depends on rounding. -/

/-- A Ruby hash key as it occurs in a metric record: a Symbol or a String.
`MessagePack.pack` serialises a Symbol and the String of the same name to
the same bytes; `MessagePack.unpack` always produces Strings. -/
inductive RKey where
  | sym : String → RKey
  | str : String → RKey
  deriving DecidableEq, Repr

/-- A Ruby scalar value occurring in a metric record. -/
inductive RScalar where
  | sym : String → RScalar
  | str : String → RScalar
  | int : Int → RScalar
  | flt : Rat → RScalar
  | rnil : RScalar
  deriving DecidableEq, Repr

/-- A value stored under a top-level key of the metric record: a scalar or
a flat hash (the `tags` / `values` mappings). -/
inductive RVal where
  | scalar : RScalar → RVal
  | hash : List (RKey × RScalar) → RVal
  deriving DecidableEq, Repr

/-- A Ruby hash at the top level of a metric record. -/
abbrev RHash := List (RKey × RVal)

/-- Ruby `Hash#[]`: `nil` (here `none`) when the key is absent. -/
def hashGet (h : RHash) (k : RKey) : Option RVal :=
  (h.find? (fun p => p.1 = k)).map Prod.snd

/-- Lookup in a flat (scalar-valued) hash. -/
def flatGet (h : List (RKey × RScalar)) (k : RKey) : Option RScalar :=
  (h.find? (fun p => p.1 = k)).map Prod.snd

/-- Ruby `Hash#merge`: entries of the receiver keep their order, with the
argument's value replacing the receiver's at a shared key; keys only in the
argument are appended in order. -/
def hashMerge (a b : List (RKey × RScalar)) : List (RKey × RScalar) :=
  (a.map (fun p =>
    match flatGet b p.1 with
    | some v => (p.1, v)
    | none => p))
  ++ b.filter (fun q => (flatGet a q.1).isNone)

/-- `MetricsCapacitor::Model::Metric`: wraps the `@metric` hash. -/
structure Metric where
  metric : RHash
  deriving DecidableEq, Repr

/-- `Metric.new(data)` with a Hash argument: `@metric = data`. -/
def Metric.ofHash (data : RHash) : Metric := ⟨data⟩

/-- Coercion msgpack applies to a key on a pack/unpack round trip:
Symbols are packed as the raw string of their name, and unpack yields
Strings, so a Symbol key comes back as the String key of the same name. -/
def RKey.msg : RKey → RKey
  | .sym s => .str s
  | .str s => .str s

/-- Pack/unpack coercion on scalars: Symbols come back as Strings;
strings, integers, floats and nil are preserved exactly. -/
def RScalar.msg : RScalar → RScalar
  | .sym s => .str s
  | v => v

/-- Pack/unpack coercion on a stored value. -/
def RVal.msg : RVal → RVal
  | .scalar v => .scalar v.msg
  | .hash kvs => .hash (kvs.map (fun p => (p.1.msg, p.2.msg)))

/-- Pack/unpack coercion on a whole record. -/
def msgCoerce (h : RHash) : RHash :=
  h.map (fun p => (p.1.msg, p.2.msg))

/-- The byte payload `@metric.to_msgpack`, represented by its msgpack
data-model value: the packer is deterministic and injective on this domain,
so two payloads are byte-for-byte equal iff these values are equal.
A Symbol is packed as the bytes of its name, identically to the String. -/
def Metric.to_redis (m : Metric) : RHash :=
  msgCoerce m.metric

/-- Ruby Hash insertion, as building a Hash from a packed map's entries
performs it: an entry whose key is already present overwrites the stored
value at that key's original position; a new key is appended. -/
def rinsert {α : Type} (h : List (RKey × α)) (k : RKey) (v : α) : List (RKey × α) :=
  if (h.find? (fun p => p.1 = k)).isSome then
    h.map (fun p => if p.1 = k then (k, v) else p)
  else
    h ++ [(k, v)]

/-- The Ruby Hash built by inserting a packed map's entries in order:
a duplicate key (possible after symbol coercion) keeps its first
occurrence's position and its last occurrence's value. -/
def rubyHashOfEntries {α : Type} (entries : List (RKey × α)) : List (RKey × α) :=
  entries.foldl (fun acc p => rinsert acc p.1 p.2) []

/-- Unpacking one stored value: a nested map becomes a Ruby Hash. -/
def valUnpack : RVal → RVal
  | .scalar v => .scalar v
  | .hash kvs => .hash (rubyHashOfEntries kvs)

/-- Unpacking a whole payload: each entry's value is unpacked and the
entries are inserted in order into a fresh Ruby Hash. -/
def unpackHash (entries : RHash) : RHash :=
  rubyHashOfEntries (entries.map (fun p => (p.1, valUnpack p.2)))

/-- `Metric.new(data)` with a non-Hash argument: `@metric =
MessagePack.unpack(data)`, the Ruby Hash built from the payload's map
entries — duplicate keys collapse as Ruby Hash insertion dictates. -/
def Metric.ofPayload (payload : RHash) : Metric := ⟨unpackHash payload⟩

/-- A stored value whose nested map, if any, has pairwise-distinct keys. -/
def valKeysNodup : RVal → Prop
  | .scalar _ => True
  | .hash kvs => (kvs.map Prod.fst).Nodup

instance instDecidableValKeysNodup (v : RVal) : Decidable (valKeysNodup v) :=
  match v with
  | .scalar _ => isTrue trivial
  | .hash kvs => inferInstanceAs (Decidable ((kvs.map Prod.fst).Nodup))

/-- Result of a Ruby method call that may raise. -/
inductive RubyResult (α : Type) where
  | ok : α → RubyResult α
  | exn : String → RubyResult α
  deriving DecidableEq, Repr

/-- The `tags` accessor:
`return @metric[:tags].merge({ capacitor: 'tagged' }) unless @metric[:tags].empty?`
`{ capacitor: 'untagged' }`.
`empty?` exists on Hash, String and Symbol; on nil (absent key) or a
number it raises NoMethodError, and `merge` raises on a non-empty String
or Symbol. -/
def Metric.tags (m : Metric) : RubyResult (List (RKey × RScalar)) :=
  match hashGet m.metric (.sym "tags") with
  | some (.hash kvs) =>
      if kvs.isEmpty then
        .ok [(.sym "capacitor", .str "untagged")]
      else
        .ok (hashMerge kvs [(.sym "capacitor", .str "tagged")])
  | some (.scalar (.sym s)) =>
      if s.isEmpty then
        .ok [(.sym "capacitor", .str "untagged")]
      else
        .exn "NoMethodError: undefined method merge for Symbol"
  | some (.scalar (.str s)) =>
      if s.isEmpty then
        .ok [(.sym "capacitor", .str "untagged")]
      else
        .exn "NoMethodError: undefined method merge for String"
  | _ => .exn "NoMethodError: undefined method empty?"

/-- The `values` accessor:
`case @metric[:values] when Hash then @metric[:values]
 when (Integer||Float) then { value: @metric[:values].to_f }
 else { value: 0.0 } end`.
In Ruby the case guard `(Integer||Float)` evaluates to `Integer`
(`||` on a truthy class returns its left operand), so only Integer hits
the `.to_f` branch; a Float falls through to the `else` branch. -/
def Metric.values (m : Metric) : List (RKey × RScalar) :=
  match hashGet m.metric (.sym "values") with
  | some (.hash kvs) => kvs
  | some (.scalar (.int n)) => [(.sym "value", .flt (n : Rat))]
  | _ => [(.sym "value", .flt 0)]

/-! ## Part II: the Go AMQP transport

`transport_amqp.go`.  Broker objects (`*amqp.Connection`, `*amqp.Channel`)
are modelled by `Option Unit`: `some ()` is a live object obtained from a
successful `amqpInit`, `none` is the Go `nil` a declared-but-unassigned
variable keeps when its direction is disabled. -/

/-- `TransportConfig`: the fields `NewAMQPTransport` reads. -/
structure TransportConfig where
  AMQPURL : String
  AMQPTimeout : Int
  AMQPTag : String
  AMQPConsumers : Int
  AMQPProducers : Int
  BufferSize : Int
  deriving DecidableEq, Repr

/-- The `AMQPTransport` struct.  Go channels are modelled by their
capacities (`InputCap`, `OutputCap`, `ExitChanCap`), which is all the
claims consult. -/
structure AMQPTransport where
  InputConn : Option Unit
  OutputConn : Option Unit
  InputChannel : Option Unit
  OutputChannel : Option Unit
  Size : Int
  Consumers : Int
  Producers : Int
  Exchange : String
  Queue : String
  ListenerEnabled : Bool
  WriterEnabled : Bool
  InputCap : Int
  OutputCap : Int
  ExitChanCap : Int
  deriving DecidableEq, Repr

/-- `NewAMQPTransport(c, listenerEnabled, writerEnabled, ...)` on the
success path of the broker calls (`amqpInit`, `ExchangeDeclare`,
`QueueDeclare`, `QueueBind` are external I/O; their failure aborts
construction before any state below is built).  The Go function receives
`c` as a `*TransportConfig` and assigns through it, so the result pairs
the constructed transport with the state of the caller's config after the
call. -/
def NewAMQPTransport (c : TransportConfig) (listenerEnabled writerEnabled : Bool) :
    AMQPTransport × TransportConfig :=
  let c := if c.AMQPTag = "" then { c with AMQPTag := "default" } else c
  let c := if c.BufferSize = 0 then { c with BufferSize := 1000 } else c
  let queue := "metcap:" ++ c.AMQPTag
  let exchange := "metcap:" ++ c.AMQPTag
  let inputConn : Option Unit := if listenerEnabled then some () else none
  let inputChannel : Option Unit := if listenerEnabled then some () else none
  let outputConn : Option Unit := if writerEnabled then some () else none
  let outputChannel : Option Unit := if writerEnabled then some () else none
  ({ InputConn := inputConn
     OutputConn := outputConn
     InputChannel := inputChannel
     OutputChannel := outputChannel
     Size := c.BufferSize
     Consumers := c.AMQPConsumers
     Producers := c.AMQPProducers
     Exchange := exchange
     Queue := queue
     ListenerEnabled := listenerEnabled
     WriterEnabled := writerEnabled
     InputCap := c.BufferSize
     OutputCap := c.BufferSize
     ExitChanCap := 1 }, c)

/-! ### The subscriber worker loop (`Start`, writer side)

Within one worker the loop body is straight-line code; its observable
actions on one delivery are recorded as an ordered event trace. -/

/-- Observable actions of a subscriber worker, in program order.
`nack multiple requeue` is `message.Nack(multiple, requeue)`;
`ack multiple` is `message.Ack(multiple)`; `enqueue m` is
`t.Output <- &metric`; `logError` is `t.Logger.Errorf(...)`. -/
inductive AmqpEvent (α : Type) where
  | nack : Bool → Bool → AmqpEvent α
  | logError : String → AmqpEvent α
  | enqueue : α → AmqpEvent α
  | ack : Bool → AmqpEvent α
  deriving DecidableEq, Repr

/-- One iteration of the subscriber loop on a received delivery
(transport_amqp.go lines 195-203), parametric in the decoder
`DeserializeMetric` (defined outside this file's sources):
on decode error, `message.Nack(false, false)` then log, then `continue`;
on success, push onto `t.Output` and then `message.Ack(false)`. -/
def handleDelivery {α : Type} (deserializeMetric : String → Except String α)
    (body : String) : List (AmqpEvent α) :=
  match deserializeMetric body with
  | .error e => [.nack false false, .logError ("[amqp] Failed to deserialize metric: " ++ e)]
  | .ok m => [.enqueue m, .ack false]

/-- What a subscriber worker's `select` sees: a delivery arriving on its
stream, or a stop notification on `t.ExitChan`. -/
inductive SubInput where
  | delivery : String → SubInput
  | stop : SubInput
  deriving DecidableEq, Repr

/-- The subscriber worker loop over a finite schedule of select outcomes:
a stop notification returns immediately; a delivery is handled and the
loop continues. -/
def workerRun {α : Type} (deserializeMetric : String → Except String α) :
    List SubInput → List (AmqpEvent α)
  | [] => []
  | .stop :: _ => []
  | .delivery body :: rest =>
      handleDelivery deserializeMetric body ++ workerRun deserializeMetric rest

/-! ### The shutdown watcher (`Start`, final goroutine) -/

/-- The watcher's worker total (transport_amqp.go lines 213-219):
`goroutines := 0; if ListenerEnabled { += Producers }; if WriterEnabled { += Consumers }`. -/
def AMQPTransport.goroutines (t : AMQPTransport) : Int :=
  (if t.ListenerEnabled then t.Producers else 0)
  + (if t.WriterEnabled then t.Consumers else 0)

/-- How many worker goroutines `Start` spawns: the loop
`for i := 1; i <= t.Producers; i++` runs `t.Producers.toNat` times, and
similarly for consumers. -/
def AMQPTransport.spawnedWorkers (t : AMQPTransport) : Nat :=
  (if t.ListenerEnabled then t.Producers.toNat else 0)
  + (if t.WriterEnabled then t.Consumers.toNat else 0)

/-- The watcher loop (transport_amqp.go lines 221-231) over the sequence
of values its polls of `t.ExitFlag.Get()` return, yielding the total
number of stop notifications sent over `t.ExitChan`: on the first `true`
it sends `max 0 goroutines` notifications (`for i := 0; i < goroutines;
i++`) and returns, never polling again; on `false` it sleeps and polls
again. -/
def watcherNotifications (goroutines : Int) : List Bool → Nat
  | [] => 0
  | flag :: rest =>
      if flag then goroutines.toNat else watcherNotifications goroutines rest

/-! ### `Stop` -/

/-- A Go runtime panic. -/
inductive GoPanic where
  | nilPointerDeref : GoPanic
  deriving DecidableEq, Repr

/-- `(*amqp.Channel).Close()` / `(*amqp.Connection).Close()` as invoked by
`Stop`: on a nil receiver the method dereferences it and the runtime
panics; on a live object it closes and returns a possible error, which
`Stop` discards. -/
def closeAmqp : Option Unit → Except GoPanic Unit
  | none => .error .nilPointerDeref
  | some _ => .ok ()

/-- The teardown sequence of `Stop` (transport_amqp.go lines 237-240),
after `t.Wg.Wait()` has returned: close input channel, input connection,
output channel, output connection, in that order; a panic aborts the
rest of the sequence. -/
def AMQPTransport.stopTeardown (t : AMQPTransport) : Except GoPanic Unit := do
  _ ← closeAmqp t.InputChannel
  _ ← closeAmqp t.InputConn
  _ ← closeAmqp t.OutputChannel
  _ ← closeAmqp t.OutputConn
  pure ()

/-! ### Interleaving model of `Start` / `Stop` synchronisation

The worker goroutines spawned by `Start` execute `t.Wg.Add(1)` as their
first instruction *inside* the goroutine (lines 146 and 179), with
`defer t.Wg.Done()`; `Stop` executes `t.Wg.Wait()`.  The model below
interleaves these with the watcher and the external stop flag. -/

/-- Progress of one spawned worker goroutine: not yet scheduled
(`spawned`), past its `Wg.Add(1)` (`registered`), or returned after
receiving a stop notification, its deferred `Wg.Done()` run (`exited`). -/
inductive WorkerPhase where
  | spawned : WorkerPhase
  | registered : WorkerPhase
  | exited : WorkerPhase
  deriving DecidableEq, Repr

/-- Shared state of the bridge after `Start` has spawned its goroutines
and the caller proceeds to set the stop flag and call `Stop`. -/
structure BridgeState where
  wgCounter : Int
  workers : List WorkerPhase
  exitFlag : Bool
  watcherFired : Bool
  exitTokens : Nat
  stopReturned : Bool
  deriving DecidableEq, Repr

/-- State right after `Start` returns: the WaitGroup counter is 0 and all
`n` spawned worker goroutines are yet to run their first instruction. -/
def initBridgeState (n : Nat) : BridgeState :=
  { wgCounter := 0
    workers := List.replicate n .spawned
    exitFlag := false
    watcherFired := false
    exitTokens := 0
    stopReturned := false }

/-- One interleaved step of the bridge's threads:
`setFlag` — the surrounding pipeline sets the monotonic exit flag;
`register` — a spawned worker goroutine runs its `t.Wg.Add(1)`;
`watcherSend` — the watcher observes the flag and deposits one stop
notification per worker on `t.ExitChan` (exactly once);
`workerExit` — a registered worker receives a notification, returns, and
its deferred `t.Wg.Done()` runs;
`waitReturn` — `t.Wg.Wait()` inside `Stop` observes counter 0 and
returns. -/
inductive bridgeStep : BridgeState → BridgeState → Prop where
  | setFlag (s : BridgeState) :
      s.exitFlag = false →
      bridgeStep s { s with exitFlag := true }
  | register (s : BridgeState) (i : Nat) :
      s.workers.get? i = some .spawned →
      bridgeStep s
        { s with wgCounter := s.wgCounter + 1, workers := s.workers.set i .registered }
  | watcherSend (s : BridgeState) :
      s.exitFlag = true →
      s.watcherFired = false →
      bridgeStep s
        { s with watcherFired := true, exitTokens := s.exitTokens + s.workers.length }
  | workerExit (s : BridgeState) (i : Nat) :
      s.workers.get? i = some .registered →
      0 < s.exitTokens →
      bridgeStep s
        { s with wgCounter := s.wgCounter - 1, workers := s.workers.set i .exited,
                 exitTokens := s.exitTokens - 1 }
  | waitReturn (s : BridgeState) :
      s.wgCounter = 0 →
      s.stopReturned = false →
      bridgeStep s { s with stopReturned := true }

/-- Reachability under interleaved execution. -/
def bridgeReach (s s' : BridgeState) : Prop := Relation.ReflTransGen bridgeStep s s'

/-! ## Part III: the claims -/

/-- A decoder standing in for `DeserializeMetric` in concrete witnesses. -/
def sampleDecoder : String → Except String Nat :=
  fun s => if s = "ok" then .ok 7 else .error "bad"

/-- C1: for a delivery whose payload decodes successfully, the subscriber
worker's trace is decode, then enqueue onto the outbound queue, then
positive acknowledgment: the ack occurs, and every position holding the
ack is strictly preceded by a position holding the enqueue of the decoded
Metric — the ack is never sent before the enqueue. -/
theorem subscriber_ack_strictly_after_enqueue {α : Type}
    (dec : String → Except String α) (body : String) (m : α)
    (h : dec body = .ok m) :
    handleDelivery dec body = [.enqueue m, .ack false] ∧
    (∃ j, (handleDelivery dec body).get? j = some (.ack false)) ∧
    ∀ j, (handleDelivery dec body).get? j = some (.ack false) →
      ∃ i, i < j ∧ (handleDelivery dec body).get? i = some (.enqueue m) := by
  refine ⟨by simp [handleDelivery, h], ⟨1, by simp [handleDelivery, h]⟩, ?_⟩
  intro j hj
  simp only [handleDelivery, h] at hj
  match j with
  | 0 => simp at hj
  | 1 => exact ⟨0, by omega, by simp [handleDelivery, h]⟩
  | n + 2 => simp at hj

/-- Witness for C1 at the concrete decoder `sampleDecoder` and body "ok". -/
theorem subscriber_ack_strictly_after_enqueue_witness :
    sampleDecoder "ok" = .ok 7 ∧
    (handleDelivery sampleDecoder "ok" = [.enqueue 7, .ack false] ∧
     (∃ j, (handleDelivery sampleDecoder "ok").get? j = some (.ack false)) ∧
     ∀ j, (handleDelivery sampleDecoder "ok").get? j = some (.ack false) →
       ∃ i, i < j ∧ (handleDelivery sampleDecoder "ok").get? i = some (.enqueue 7)) :=
  ⟨rfl, subscriber_ack_strictly_after_enqueue sampleDecoder "ok" 7 rfl⟩

/-- C2: for a delivery whose payload fails to decode, the subscriber
worker negatively acknowledges it with `requeue = false` (no redelivery)
and logs the failure, pushes nothing onto the outbound queue, and the loop
continues with the subsequent schedule unchanged (the handler is a total
function — no crash). -/
theorem subscriber_rejects_undecodable_delivery {α : Type}
    (dec : String → Except String α) (body e : String)
    (h : dec body = .error e) :
    handleDelivery dec body
      = [.nack false false, .logError ("[amqp] Failed to deserialize metric: " ++ e)] ∧
    (∀ m : α, AmqpEvent.enqueue m ∉ handleDelivery dec body) ∧
    (∀ b : Bool, AmqpEvent.ack b ∉ handleDelivery dec body) ∧
    ∀ rest, workerRun dec (SubInput.delivery body :: rest)
      = handleDelivery dec body ++ workerRun dec rest := by
  refine ⟨by simp [handleDelivery, h], ?_, ?_, fun rest => by simp [workerRun]⟩
  · intro m
    simp [handleDelivery, h]
  · intro b
    simp [handleDelivery, h]

/-- Witness for C2 at the concrete decoder `sampleDecoder` and body "junk". -/
theorem subscriber_rejects_undecodable_delivery_witness :
    sampleDecoder "junk" = .error "bad" ∧
    (handleDelivery sampleDecoder "junk"
       = [.nack false false, .logError ("[amqp] Failed to deserialize metric: " ++ "bad")] ∧
     (∀ m : Nat, AmqpEvent.enqueue m ∉ handleDelivery sampleDecoder "junk") ∧
     (∀ b : Bool, AmqpEvent.ack b ∉ handleDelivery sampleDecoder "junk") ∧
     ∀ rest, workerRun sampleDecoder (SubInput.delivery "junk" :: rest)
       = handleDelivery sampleDecoder "junk" ++ workerRun sampleDecoder rest) :=
  ⟨rfl, subscriber_rejects_undecodable_delivery sampleDecoder "junk" "bad" rfl⟩

/-- The watcher's first `true` poll sends `goroutines.toNat`
notifications, and the polls after it are never consulted. -/
lemma watcherNotifications_first_true (g : Int) (pre post : List Bool)
    (hpre : ∀ b ∈ pre, b = false) :
    watcherNotifications g (pre ++ true :: post) = g.toNat := by
  induction pre with
  | nil => simp [watcherNotifications]
  | cons b rest ih =>
      have hb : b = false := hpre b (by simp)
      subst hb
      simpa [watcherNotifications] using ih (fun x hx => hpre x (by simp [hx]))

/-- A config with the tag and buffer size unset, three producers and two
consumers, used by concrete witnesses and counterexamples. -/
def sampleConfig : TransportConfig :=
  { AMQPURL := "amqp://localhost:5672"
    AMQPTimeout := 5
    AMQPTag := ""
    AMQPConsumers := 2
    AMQPProducers := 3
    BufferSize := 0 }

/-- The transport built from `sampleConfig` with both directions enabled. -/
def sampleTransport : AMQPTransport := (NewAMQPTransport sampleConfig true true).1

/-- C3: once the polled stop flag turns true, the watcher sends exactly
one stop notification per spawned worker — producers when the listener
(publish) direction is enabled plus consumers when the writer (consume)
direction is enabled — and then returns: the total sent is the same
whatever the flag polls after the first true would have been, so a later
poll never resends. -/
theorem watcher_notifies_each_worker_exactly_once (t : AMQPTransport)
    (hp : 0 ≤ t.Producers) (hc : 0 ≤ t.Consumers)
    (pre post : List Bool) (hpre : ∀ b ∈ pre, b = false) :
    watcherNotifications t.goroutines (pre ++ true :: post) = t.spawnedWorkers ∧
    ∀ post', watcherNotifications t.goroutines (pre ++ true :: post')
      = watcherNotifications t.goroutines (pre ++ true :: post) := by
  have htot : t.goroutines.toNat = t.spawnedWorkers := by
    unfold AMQPTransport.goroutines AMQPTransport.spawnedWorkers
    rcases t.ListenerEnabled <;> rcases t.WriterEnabled <;> (simp; try omega)
  refine ⟨by rw [watcherNotifications_first_true _ _ _ hpre, htot], ?_⟩
  intro post'
  rw [watcherNotifications_first_true _ _ _ hpre,
    watcherNotifications_first_true _ _ _ hpre]

/-- Witness for C3 at `sampleTransport` (producers = 3, consumers = 2,
both directions enabled): exactly 5 notifications. -/
theorem watcher_notifies_each_worker_exactly_once_witness :
    (0 ≤ sampleTransport.Producers) ∧ (0 ≤ sampleTransport.Consumers) ∧
    (∀ b ∈ [false, false], b = false) ∧
    (watcherNotifications sampleTransport.goroutines
        ([false, false] ++ true :: [true, true]) = sampleTransport.spawnedWorkers ∧
     ∀ post', watcherNotifications sampleTransport.goroutines
        ([false, false] ++ true :: post')
       = watcherNotifications sampleTransport.goroutines
           ([false, false] ++ true :: [true, true])) ∧
    sampleTransport.spawnedWorkers = 5 :=
  ⟨by decide, by decide, by decide,
   watcher_notifies_each_worker_exactly_once sampleTransport (by decide) (by decide)
     [false, false] [true, true] (by decide), by decide⟩

/-- C4 counterexample: the stop channel is created by
`make(chan bool, 1)`, capacity 1; with producers = 3 and consumers = 2 and
both directions enabled there are 5 active workers, so the buffering does
not suffice to hold one notification per active worker. -/
theorem stop_channel_capacity_below_worker_count :
    sampleTransport.ExitChanCap = 1 ∧
    sampleTransport.spawnedWorkers = 5 ∧
    sampleTransport.ExitChanCap < (sampleTransport.spawnedWorkers : Int) := by
  refine ⟨rfl, by decide, by decide⟩

/-- C4 amended: the shared stop channel is created with a fixed buffer of
one notification, independent of the worker counts and enabled
directions. -/
theorem stop_channel_capacity_is_one (c : TransportConfig) (le we : Bool) :
    ((NewAMQPTransport c le we).1).ExitChanCap = 1 := rfl

/-- C5: `t.Wg.Add(1)` runs as the first instruction *inside* each worker
goroutine, so there is a valid interleaving — spawn the workers, the
caller sets the exit flag, `Stop` runs `t.Wg.Wait()` before any worker
goroutine is scheduled — in which `Wait` observes counter 0 and returns
while the spawned worker has neither registered with the barrier nor
exited: `Stop` completes with a leaked worker. -/
theorem stop_can_return_before_worker_registers :
    ∃ s : BridgeState, bridgeReach (initBridgeState 1) s ∧
      s.stopReturned = true ∧ s.workers.get? 0 = some WorkerPhase.spawned := by
  refine ⟨{ wgCounter := 0
            workers := [.spawned]
            exitFlag := true
            watcherFired := false
            exitTokens := 0
            stopReturned := true }, ?_, rfl, rfl⟩
  have h1 : bridgeStep (initBridgeState 1)
      { wgCounter := 0
        workers := [.spawned]
        exitFlag := true
        watcherFired := false
        exitTokens := 0
        stopReturned := false } := bridgeStep.setFlag (initBridgeState 1) rfl
  have h2 : bridgeStep
      { wgCounter := 0
        workers := [.spawned]
        exitFlag := true
        watcherFired := false
        exitTokens := 0
        stopReturned := false }
      { wgCounter := 0
        workers := [.spawned]
        exitFlag := true
        watcherFired := false
        exitTokens := 0
        stopReturned := true } := bridgeStep.waitReturn _ rfl rfl
  exact Relation.ReflTransGen.tail (Relation.ReflTransGen.single h1) h2

/-- The intended schedule also exists in the model: the worker registers,
the watcher fires after the flag is set, the worker exits, and only then
does `Wait` return — so the refuting trace above is a genuine race, not an
artifact of an over-constrained model. -/
theorem intended_shutdown_schedule_exists :
    ∃ s : BridgeState, bridgeReach (initBridgeState 1) s ∧
      s.stopReturned = true ∧ s.workers.get? 0 = some WorkerPhase.exited := by
  refine ⟨{ wgCounter := 0
            workers := [.exited]
            exitFlag := true
            watcherFired := true
            exitTokens := 0
            stopReturned := true }, ?_, rfl, rfl⟩
  have h1 : bridgeStep (initBridgeState 1)
      { wgCounter := 1, workers := [.registered], exitFlag := false,
        watcherFired := false, exitTokens := 0, stopReturned := false } := by
    have := bridgeStep.register (initBridgeState 1) 0 rfl
    simpa [initBridgeState] using this
  have h2 : bridgeStep
      { wgCounter := 1, workers := [.registered], exitFlag := false,
        watcherFired := false, exitTokens := 0, stopReturned := false }
      { wgCounter := 1, workers := [.registered], exitFlag := true,
        watcherFired := false, exitTokens := 0, stopReturned := false } :=
    bridgeStep.setFlag _ rfl
  have h3 : bridgeStep
      { wgCounter := 1, workers := [.registered], exitFlag := true,
        watcherFired := false, exitTokens := 0, stopReturned := false }
      { wgCounter := 1, workers := [.registered], exitFlag := true,
        watcherFired := true, exitTokens := 1, stopReturned := false } :=
    bridgeStep.watcherSend _ rfl rfl
  have h4 : bridgeStep
      { wgCounter := 1, workers := [.registered], exitFlag := true,
        watcherFired := true, exitTokens := 1, stopReturned := false }
      { wgCounter := 0, workers := [.exited], exitFlag := true,
        watcherFired := true, exitTokens := 0, stopReturned := false } :=
    bridgeStep.workerExit _ 0 rfl (by decide)
  have h5 : bridgeStep
      { wgCounter := 0, workers := [.exited], exitFlag := true,
        watcherFired := true, exitTokens := 0, stopReturned := false }
      { wgCounter := 0, workers := [.exited], exitFlag := true,
        watcherFired := true, exitTokens := 0, stopReturned := true } :=
    bridgeStep.waitReturn _ rfl rfl
  exact .tail (.tail (.tail (.tail (.single h1) h2) h3) h4) h5

/-- C6: `Stop` closes all four handles unconditionally.  With both
directions enabled teardown completes and close errors are discarded; but
in a publish-only configuration (`writerEnabled = false`) the output
channel and connection are Go `nil`, and in a consume-only configuration
the input ones are, so `Close()` dereferences a nil receiver and the
teardown panics instead of completing. -/
theorem stop_teardown_panics_when_one_direction_disabled :
    ((NewAMQPTransport sampleConfig true false).1).stopTeardown
      = .error .nilPointerDeref ∧
    ((NewAMQPTransport sampleConfig false true).1).stopTeardown
      = .error .nilPointerDeref ∧
    ((NewAMQPTransport sampleConfig true true).1).stopTeardown = .ok () :=
  ⟨rfl, rfl, rfl⟩

/-- C7 counterexample: `NewAMQPTransport` receives the config by pointer
and assigns the defaults through it, so after a call with the tag and
buffer size unset the caller's config has changed: its tag is now
"default" and its buffer size 1000. -/
theorem constructor_mutates_caller_config :
    (NewAMQPTransport sampleConfig true true).2 ≠ sampleConfig ∧
    ((NewAMQPTransport sampleConfig true true).2).AMQPTag = "default" ∧
    ((NewAMQPTransport sampleConfig true true).2).BufferSize = 1000 := by
  refine ⟨?_, rfl, rfl⟩
  intro h
  have := congrArg TransportConfig.AMQPTag h
  simp [sampleConfig, NewAMQPTransport] at this

/-- C7 amended: the constructor mutates the caller's config exactly by
applying the two defaults in place — the tag becomes "default" when empty
and the buffer size 1000 when zero, every other field is unchanged — so
the caller's config survives the call unchanged iff both were already
set. -/
theorem constructor_config_mutation_exact (c : TransportConfig) (le we : Bool) :
    (NewAMQPTransport c le we).2
      = { c with AMQPTag := if c.AMQPTag = "" then "default" else c.AMQPTag,
                 BufferSize := if c.BufferSize = 0 then 1000 else c.BufferSize } ∧
    ((NewAMQPTransport c le we).2 = c ↔ (c.AMQPTag ≠ "" ∧ c.BufferSize ≠ 0)) := by
  have hmut : (NewAMQPTransport c le we).2
      = { c with AMQPTag := if c.AMQPTag = "" then "default" else c.AMQPTag,
                 BufferSize := if c.BufferSize = 0 then 1000 else c.BufferSize } := by
    by_cases h1 : c.AMQPTag = "" <;> by_cases h2 : c.BufferSize = 0 <;>
      simp [NewAMQPTransport, h1, h2]
  refine ⟨hmut, ?_, ?_⟩
  · intro h
    constructor
    · intro htag
      have := congrArg TransportConfig.AMQPTag (hmut.symm.trans h)
      simp [htag] at this
    · intro hsize
      have := congrArg TransportConfig.BufferSize (hmut.symm.trans h)
      simp [hsize] at this
  · rintro ⟨h1, h2⟩
    rw [hmut]
    simp [h1, h2]

/-- C8: the `values` accessor normalizes an Integer input to
`{ value: <n>.to_f }` — input 42 yields `{value: 42.0}` — but a Float
input does not reach the `.to_f` branch: Ruby evaluates the case guard
`(Integer||Float)` to `Integer`, so Float 3.0 falls to the `else` branch
and normalizes to `{value: 0.0}`, not `{value: 3.0}`. -/
theorem values_integer_normalized_float_dropped :
    (Metric.ofHash [(.sym "values", .scalar (.int 42))]).values
      = [(.sym "value", .flt 42)] ∧
    (Metric.ofHash [(.sym "values", .scalar (.flt 3))]).values
      = [(.sym "value", .flt 0)] ∧
    (Metric.ofHash [(.sym "values", .scalar (.flt 3))]).values
      ≠ [(.sym "value", .flt 3)] := by
  refine ⟨by decide, rfl, by decide⟩

/-- C9 counterexample: an empty mapping under `:values` is a Hash, so the
`values` accessor returns it unchanged — an empty mapping, violating the
never-empty invariant. -/
theorem values_of_empty_hash_input_is_empty :
    (Metric.ofHash [(.sym "values", .hash [])]).values = [] := rfl

/-- Merging the singleton `{k => w}` into any hash leaves the pair
`(k, w)` in the result: either the receiver holds `k` and that entry's
value is replaced in place by `w`, or `(k, w)` is appended. -/
lemma mem_hashMerge_singleton (a : List (RKey × RScalar)) (k : RKey) (w : RScalar) :
    (k, w) ∈ hashMerge a [(k, w)] := by
  unfold hashMerge
  rcases hf : flatGet a k with _ | v
  · refine List.mem_append_right _ ?_
    rw [List.mem_filter]
    exact ⟨by simp, by simp [hf]⟩
  · refine List.mem_append_left _ ?_
    rw [List.mem_map]
    unfold flatGet at hf
    rcases hfind : a.find? (fun p => p.1 = k) with _ | p
    · rw [hfind] at hf
      simp at hf
    · have hpk : p.1 = k := by
        have := List.find?_some hfind
        simpa using this
      refine ⟨p, List.mem_of_find?_eq_some hfind, ?_⟩
      have hfg : flatGet [(k, w)] k = some w := by
        simp [flatGet]
      simp [hpk, hfg]

/-- C9 amended: every mapping the `tags` accessor returns contains the
`:capacitor` sentinel entry (value `'tagged'` or `'untagged'`), so
normalized tags are never empty; normalized `values` is never empty
except in the one case where the `:values` field holds an empty mapping,
which the accessor returns unchanged. -/
theorem normalized_tags_values_nonempty_amended (m : Metric) :
    (∀ r, m.tags = .ok r →
      (RKey.sym "capacitor", RScalar.str "tagged") ∈ r ∨
      (RKey.sym "capacitor", RScalar.str "untagged") ∈ r) ∧
    (m.values = [] → hashGet m.metric (.sym "values") = some (.hash [])) := by
  constructor
  · intro r hr
    rcases hg : hashGet m.metric (.sym "tags") with _ | v
    · simp [Metric.tags, hg] at hr
    · rcases v with sc | kvs
      · rcases sc with s | s | n | q | _
        · simp only [Metric.tags, hg] at hr
          split at hr
          · rw [RubyResult.ok.injEq] at hr
            right
            rw [← hr]
            simp
          · simp at hr
        · simp only [Metric.tags, hg] at hr
          split at hr
          · rw [RubyResult.ok.injEq] at hr
            right
            rw [← hr]
            simp
          · simp at hr
        · simp [Metric.tags, hg] at hr
        · simp [Metric.tags, hg] at hr
        · simp [Metric.tags, hg] at hr
      · rcases kvs with _ | ⟨p, ps⟩
        · simp only [Metric.tags, hg, List.isEmpty_nil, if_true,
            RubyResult.ok.injEq] at hr
          right
          rw [← hr]
          simp
        · simp only [Metric.tags, hg, List.isEmpty_cons] at hr
          simp only [Bool.false_eq_true, if_false, RubyResult.ok.injEq] at hr
          left
          rw [← hr]
          exact mem_hashMerge_singleton (p :: ps) (.sym "capacitor") (.str "tagged")
  · intro hv
    rcases hg : hashGet m.metric (.sym "values") with _ | v
    · simp [Metric.values, hg] at hv
    · rcases v with sc | kvs
      · rcases sc with _ | _ | n | _ | _ <;> simp [Metric.values, hg] at hv
      · simp only [Metric.values, hg] at hv
        rw [hv]

/-- Pack/unpack key coercion is idempotent. -/
lemma rkey_msg_idem (k : RKey) : k.msg.msg = k.msg := by
  cases k <;> rfl

/-- Pack/unpack scalar coercion is idempotent. -/
lemma rscalar_msg_idem (v : RScalar) : v.msg.msg = v.msg := by
  cases v <;> rfl

/-- Pack/unpack value coercion is idempotent. -/
lemma rval_msg_idem (v : RVal) : v.msg.msg = v.msg := by
  rcases v with sc | kvs
  · simp [RVal.msg, rscalar_msg_idem]
  · simp only [RVal.msg, List.map_map, RVal.hash.injEq]
    apply List.map_congr_left
    intro p _
    simp [Function.comp, rkey_msg_idem, rscalar_msg_idem]

/-- Pack/unpack record coercion is idempotent. -/
lemma msgCoerce_idem (h : RHash) : msgCoerce (msgCoerce h) = msgCoerce h := by
  simp only [msgCoerce, List.map_map]
  apply List.map_congr_left
  intro p _
  simp [Function.comp, rkey_msg_idem, rval_msg_idem]

/-- Folding `rinsert` over entries whose keys are fresh for the
accumulator and pairwise distinct appends them unchanged. -/
lemma rinsert_foldl_fresh {α : Type} (entries : List (RKey × α)) :
    ∀ acc : List (RKey × α),
      (∀ x ∈ acc.map Prod.fst, x ∉ entries.map Prod.fst) →
      (entries.map Prod.fst).Nodup →
      entries.foldl (fun a p => rinsert a p.1 p.2) acc = acc ++ entries := by
  induction entries with
  | nil => intro acc _ _; simp
  | cons pv rest ih =>
      obtain ⟨k, v⟩ := pv
      intro acc hdisj hent
      have hent' : (k :: rest.map Prod.fst).Nodup := by simpa using hent
      have hknotin : k ∉ acc.map Prod.fst := by
        intro hk
        exact hdisj k hk (by simp)
      have hnone : acc.find? (fun p => p.1 = k) = none := by
        rw [List.find?_eq_none]
        intro p hp
        simp only [decide_eq_true_eq]
        intro hpk
        exact hknotin (List.mem_map.mpr ⟨p, hp, hpk⟩)
      have hins : rinsert acc k v = acc ++ [(k, v)] := by
        simp [rinsert, hnone]
      have hdisj' : ∀ x ∈ (acc ++ [(k, v)]).map Prod.fst, x ∉ rest.map Prod.fst := by
        intro x hx
        rw [List.map_append, List.mem_append] at hx
        rcases hx with hx | hx
        · have hnot := hdisj x hx
          intro hr
          exact hnot (by simp [hr])
        · have hxk : x = k := by simpa using hx
          subst hxk
          exact (List.nodup_cons.mp hent').1
      simp only [List.foldl_cons]
      rw [hins, ih (acc ++ [(k, v)]) hdisj' (List.nodup_cons.mp hent').2]
      simp

/-- Building a Ruby Hash from entries with pairwise-distinct keys keeps
them unchanged. -/
lemma rubyHashOfEntries_eq_self {α : Type} (entries : List (RKey × α))
    (h : (entries.map Prod.fst).Nodup) : rubyHashOfEntries entries = entries := by
  simpa [rubyHashOfEntries] using rinsert_foldl_fresh entries [] (by simp) h

/-- Unpacking a payload whose keys are pairwise distinct at both levels
collapses nothing: the Ruby Hash holds exactly the payload's entries. -/
lemma unpackHash_eq_self (h : RHash)
    (hk : (h.map Prod.fst).Nodup)
    (hv : ∀ p ∈ h, valKeysNodup p.2) :
    unpackHash h = h := by
  unfold unpackHash
  have hmap : h.map (fun p => (p.1, valUnpack p.2)) = h := by
    have hpt : ∀ p ∈ h, (p.1, valUnpack p.2) = id p := by
      intro p hp
      have hv' := hv p hp
      rcases p with ⟨pk, pv⟩
      rcases pv with sc | kvs
      · rfl
      · simp only [valUnpack, id]
        rw [rubyHashOfEntries_eq_self kvs hv']
    rw [List.map_congr_left hpt, List.map_id]
  rw [hmap]
  exact rubyHashOfEntries_eq_self h hk

/-- C10 counterexample: a Metric built from a structured record with the
symbol key `:name` (the shape the accessors read) does not round trip to
an equal Metric: packing serialises the Symbol as the bytes of its name
and unpacking yields a String, so the decoded record carries the string
key "name" instead. -/
theorem decode_of_encode_differs_from_original :
    Metric.ofPayload (Metric.to_redis (Metric.ofHash [(.sym "name", .scalar (.str "cpu"))]))
      ≠ Metric.ofHash [(.sym "name", .scalar (.str "cpu"))] ∧
    Metric.ofPayload (Metric.to_redis (Metric.ofHash [(.sym "name", .scalar (.str "cpu"))]))
      = Metric.ofHash [(.str "name", .scalar (.str "cpu"))] := by
  exact ⟨by decide, by decide⟩

/-- When a record holds a symbol/string key collision, even the payload
does not round-trip: `{:k => 1, "k" => 2}` packs to two entries under the
key "k", unpack's Ruby Hash keeps one (last value wins), and re-encoding
yields a one-entry payload. -/
theorem duplicate_key_payload_collapses :
    Metric.ofPayload (Metric.to_redis (Metric.ofHash
        [(.sym "k", .scalar (.int 1)), (.str "k", .scalar (.int 2))]))
      = Metric.ofHash [(.str "k", .scalar (.int 2))] ∧
    Metric.to_redis (Metric.ofPayload (Metric.to_redis (Metric.ofHash
        [(.sym "k", .scalar (.int 1)), (.str "k", .scalar (.int 2))])))
      ≠ Metric.to_redis (Metric.ofHash
        [(.sym "k", .scalar (.int 1)), (.str "k", .scalar (.int 2))]) := by
  exact ⟨by decide, by decide⟩

/-- C10 amended: for a record whose coerced keys are pairwise distinct at
both levels (no symbol/string key collisions — the shape of every record
the program builds), decoding an encoded Metric yields the original
record with every Symbol coerced to the String of its name, the byte
payload round-trips byte-for-byte on re-encoding, and the decoded Metric
equals the original precisely when the record is fixed by that coercion
(no symbols); with colliding keys, unpack's Ruby Hash collapses
duplicates, so even the payload is not preserved. -/
theorem roundtrip_coerces_symbols_to_strings (m : Metric)
    (hk : ((msgCoerce m.metric).map Prod.fst).Nodup)
    (hv : ∀ p ∈ msgCoerce m.metric, valKeysNodup p.2) :
    Metric.ofPayload m.to_redis = Metric.ofHash (msgCoerce m.metric) ∧
    (Metric.ofPayload m.to_redis).to_redis = m.to_redis ∧
    (Metric.ofPayload m.to_redis = m ↔ msgCoerce m.metric = m.metric) := by
  have key : unpackHash (msgCoerce m.metric) = msgCoerce m.metric :=
    unpackHash_eq_self _ hk hv
  have h1 : Metric.ofPayload m.to_redis = Metric.ofHash (msgCoerce m.metric) := by
    unfold Metric.ofPayload Metric.to_redis Metric.ofHash
    rw [key]
  refine ⟨h1, ?_, ?_⟩
  · rw [h1]
    show msgCoerce (msgCoerce m.metric) = msgCoerce m.metric
    exact msgCoerce_idem m.metric
  · rw [h1]
    constructor
    · intro h
      exact congrArg Metric.metric h
    · intro h
      show Metric.mk (msgCoerce m.metric) = m
      rw [h]

/-- A Metric used by concrete round-trip witnesses. -/
def sampleMetric : Metric := Metric.ofHash [(.sym "name", .scalar (.str "cpu"))]

/-- Witness for C10's amended theorem at `sampleMetric`, whose coerced
keys are trivially collision-free. -/
theorem roundtrip_coerces_symbols_to_strings_witness :
    ((msgCoerce sampleMetric.metric).map Prod.fst).Nodup ∧
    (∀ p ∈ msgCoerce sampleMetric.metric, valKeysNodup p.2) ∧
    (Metric.ofPayload sampleMetric.to_redis = Metric.ofHash (msgCoerce sampleMetric.metric) ∧
     (Metric.ofPayload sampleMetric.to_redis).to_redis = sampleMetric.to_redis ∧
     (Metric.ofPayload sampleMetric.to_redis = sampleMetric ↔
       msgCoerce sampleMetric.metric = sampleMetric.metric)) :=
  ⟨by decide, by decide,
   roundtrip_coerces_symbols_to_strings sampleMetric (by decide) (by decide)⟩

end Metcap
